import Mathlib

/-!
Verification of `montos_inversion_bot.py`: a Telegram intake bot backed by a
Google-Sheets record store.  The sheet is modelled as a list of structured
rows, the conversation handlers as pure state-transition functions, the
`random.randint` entropy source as an explicit list of draws, and the
CPython `int(monto * 1.9)` expression as exact IEEE-754 binary64 arithmetic
over dyadic rationals.
-/

namespace MontosBot

/-- Conversation states of the main `ConversationHandler` (`range(13)` in the
source; the broadcast-only states are omitted, `FIN` is
`ConversationHandler.END`). -/
inductive ConvState where
  | MONTO
  | CONFIRMAR_INVERSION
  | CODIGO_REFERIDO
  | CONFIRMAR_REGISTRO
  | NOMBRE
  | CEDULA
  | CONFIRMAR_DATOS
  | ESPERAR_COMPROBANTE
  | MENU_OPCIONES
  | FIN
deriving DecidableEq, Repr

/-- Proleptic Gregorian calendar date, mirroring Python `datetime.date`. -/
structure Date where
  year : Nat
  month : Nat
  day : Nat
deriving DecidableEq, Repr

/-- Gregorian leap-year rule used by `datetime`. -/
def isLeapYear (y : Nat) : Bool :=
  (y % 4 == 0 && y % 100 != 0) || y % 400 == 0

/-- Number of days of month `m` of year `y`. -/
def daysInMonth (y m : Nat) : Nat :=
  if m == 2 then (if isLeapYear y then 29 else 28)
  else if m == 4 || m == 6 || m == 9 || m == 11 then 30
  else 31

/-- Successor day in the Gregorian calendar. -/
def nextDay (d : Date) : Date :=
  if d.day < daysInMonth d.year d.month then ⟨d.year, d.month, d.day + 1⟩
  else if d.month < 12 then ⟨d.year, d.month + 1, 1⟩
  else ⟨d.year + 1, 1, 1⟩

/-- `d + timedelta(days := n)` at day granularity. -/
def addDays (d : Date) : Nat → Date
  | 0 => d
  | n + 1 => addDays (nextDay d) n

/-- A `datetime.datetime`: calendar date plus second-of-day.  Adding a whole
number of days only moves the `date` component, as in Python. -/
structure DateTime where
  date : Date
  secOfDay : Nat
deriving DecidableEq, Repr

/-- Zero-padded two-digit rendering used by `strftime`. -/
def pad2 (n : Nat) : String :=
  if n < 10 then "0" ++ toString n else toString n

/-- `strftime("%Y-%m-%d")`. -/
def fecha_str (d : Date) : String :=
  toString d.year ++ "-" ++ pad2 d.month ++ "-" ++ pad2 d.day

/-- One row of the worksheet, with the header names of `connect_sheets`:
`RecordID, UserID, Nombre, Cedula, CodigoUsuario, ReferidoPor, Monto,
FechaInversion, FechaPago, Estado, ComprobanteFileID, AdminComentario`.
An empty `codigoUsuario` is the sheet's empty cell (no code assigned yet);
`fechaInversion` is kept structured instead of re-parsing its
`"%Y-%m-%d %H:%M:%S"` rendering. -/
structure Record where
  recordID : String
  userID : Nat
  nombre : String
  cedula : String
  codigoUsuario : String
  referidoPor : String
  monto : Int
  fechaInversion : DateTime
  fechaPago : Date
  estado : String
  comprobanteFileID : String
  adminComentario : String
deriving DecidableEq, Repr

/-- Mutable global state of the bot process: the worksheet rows plus the two
module-level dicts `pending_rejects` (admin id ↦ record id awaiting a
rejection reason) and `pending_checks` (record ids with an armed reminder). -/
structure BotState where
  store : List Record
  pending_rejects : List (Nat × String)
  pending_checks : List String
deriving DecidableEq, Repr

/-- `WORKSHEET.find(record_id)` scans the sheet top-down and yields the first
matching row together with its contents. -/
def find_record_aux (rid : String) : List Record → Option (Nat × Record)
  | [] => none
  | r :: rest =>
      if r.recordID == rid then some (0, r)
      else (find_record_aux rid rest).map (fun p => (p.1 + 1, p.2))

/-- `find_row_by_record_id`: row index of the first row whose `RecordID`
matches, or `none`. -/
def find_row_by_record_id (s : List Record) (rid : String) : Option Nat :=
  (find_record_aux rid s).map (·.1)

/-- Row index together with the row itself (the source reads the cells of the
found row one by one). -/
def find_record (s : List Record) (rid : String) : Option (Nat × Record) :=
  find_record_aux rid s

/-- Point update of row `i` (`WORKSHEET.update_cell` on selected columns). -/
def updateAt (f : Record → Record) : List Record → Nat → List Record
  | [], _ => []
  | r :: rest, 0 => f r :: rest
  | r :: rest, n + 1 => r :: updateAt f rest n

/-- `find_user_record`: the last (most recently appended) row of the given
user, or `none`. -/
def find_user_record (s : List Record) (uid : Nat) : Option Record :=
  (s.filter (fun r => r.userID == uid)).getLast?

/-- `find_user_by_code`: scans the `CodigoUsuario` column bottom-up and
returns the last row holding exactly `code`. -/
def find_user_by_code (s : List Record) (code : String) : Option Record :=
  (s.filter (fun r => r.codigoUsuario == code)).getLast?

/-- `random.randint(1000, 9999)` applied to one raw entropy draw: an
arbitrary natural is reduced to the inclusive range `1000..9999`. -/
def randint_1000_9999 (d : Nat) : Nat := 1000 + d % 9000

/-- The `while True` mint loop of `confirmar_datos` and `validar_transaccion`:
draw a 4-digit code, retry while `find_user_by_code` finds a collision.  The
unbounded loop is modelled with an explicit finite list of draws; `none`
means the draws were exhausted before a fresh code appeared. -/
def mint_code (s : List Record) : List Nat → Option Nat
  | [] => none
  | d :: rest =>
      let code := randint_1000_9999 d
      if (find_user_by_code s (toString code)).isSome then mint_code s rest
      else some code

/-- Character-list test that `pat` occurs at the head of `l`. -/
def leadsWith : List Char → List Char → Bool
  | [], _ => true
  | _ :: _, [] => false
  | a :: as, b :: bs => a == b && leadsWith as bs

/-- Character-list substring occurrence test. -/
def containsChars (pat : List Char) : List Char → Bool
  | [] => leadsWith pat []
  | c :: rest => leadsWith pat (c :: rest) || containsChars pat rest

/-- Python's substring containment `pat in s`. -/
def strContains (s pat : String) : Bool :=
  containsChars pat.data s.data

/-- Value of an all-digit character list, `none` if empty or non-digit. -/
def digitsToNat : List Char → Option Nat
  | [] => none
  | cs =>
      if cs.all Char.isDigit then
        some (cs.foldl (fun acc c => acc * 10 + (c.toNat - 48)) 0)
      else none

/-- CPython `int(s)` on an already-stripped string: an optional sign followed
by ASCII decimal digits (underscore grouping and non-ASCII digits are not
modelled). -/
def int_of_str (s : String) : Option Int :=
  match s.data with
  | '-' :: rest => (digitsToNat rest).map (fun n => -(n : Int))
  | '+' :: rest => (digitsToNat rest).map (fun n => (n : Int))
  | cs => (digitsToNat cs).map (fun n => (n : Int))

/-- `text.replace(".", "")`: drop every dot. -/
def stripDots (s : String) : String :=
  String.mk (s.data.filter (fun c => c != '.'))

/-- ASCII whitespace stripped by Python's `str.strip()`. -/
def isSpaceChar (c : Char) : Bool :=
  c == ' ' || c == '\t' || c == '\n' || c == '\r'

/-- Python `str.strip()`: drop leading and trailing whitespace. -/
def pyStrip (s : String) : String :=
  String.mk (((s.data.dropWhile isSpaceChar).reverse.dropWhile isSpaceChar).reverse)

/-- ASCII lowering of one character. -/
def charLower (c : Char) : Char :=
  if 'A' ≤ c && c ≤ 'Z' then Char.ofNat (c.toNat + 32) else c

/-- Python `str.lower()` restricted to ASCII letters. -/
def pyLower (s : String) : String :=
  String.mk (s.data.map charLower)

/-! ### Exact model of `int(monto * 1.9)`

CPython evaluates `monto * 1.9` in IEEE-754 binary64: the literal `1.9` is
the nearest double, the product is rounded to nearest-even, and `int(...)`
truncates toward zero.  All three steps are exact operations on dyadic
rationals, modelled below. -/

/-- Round a rational to the nearest integer, ties to even. -/
def rne (x : ℚ) : Int :=
  if x - ⌊x⌋ < 1 / 2 then ⌊x⌋
  else if (1 : ℚ) / 2 < x - ⌊x⌋ then ⌊x⌋ + 1
  else if ⌊x⌋ % 2 = 0 then ⌊x⌋ else ⌊x⌋ + 1

/-- Round a positive rational in the normal binary64 range to the nearest
double: scale by the binade exponent to a 53-bit significand, round to
nearest (ties to even), scale back. -/
def fpRound (x : ℚ) : ℚ :=
  ((rne (x * (2 : ℚ) ^ ((52 : Int) - Int.log 2 x)) : Int) : ℚ) *
    (2 : ℚ) ^ (Int.log 2 x - (52 : Int))

/-- The binary64 value of the literal `1.9`:
`1.9` rounded to 53 significant bits. -/
def fl19 : ℚ := 4278419646001971 / 2 ^ 51

/-- CPython `int(q)`: truncation toward zero. -/
def truncQ (q : ℚ) : Int := if 0 ≤ q then ⌊q⌋ else ⌈q⌉

/-- `int(monto * 1.9)` as evaluated by CPython on an integer `monto`. -/
def ganancia_of (monto : Int) : Int :=
  truncQ (fpRound ((monto : ℚ) * fl19))

/-- The `context.user_data` entries touched by the modelled handlers. -/
structure UserData where
  nombre : String
  cedula : String
  referido : String
  monto : Option Int
  ganancia : Option Int
deriving DecidableEq, Repr

/-- `recibir_monto`: normalise the text (strip, drop dots, strip), parse an
integer; on failure or out-of-range value re-prompt in `MONTO` leaving
`user_data` untouched; in range `200000..500000` store `monto` and
`ganancia = int(monto * 1.9)` and advance to `CONFIRMAR_INVERSION`. -/
def recibir_monto (text : String) (ud : UserData) : ConvState × UserData :=
  match int_of_str (pyStrip (stripDots (pyStrip text))) with
  | none => (ConvState.MONTO, ud)
  | some monto =>
      if 200000 ≤ monto ∧ monto ≤ 500000 then
        (ConvState.CONFIRMAR_INVERSION,
          { ud with monto := some monto, ganancia := some (ganancia_of monto) })
      else (ConvState.MONTO, ud)

/-- Result of the `confirmar_datos` handler. -/
structure ConfirmarDatosRes where
  next : ConvState
  state : BotState
  newRecord : Option Record
deriving DecidableEq, Repr

/-- `confirmar_datos`: on an affirmative answer build the initial record
(`Estado = "Esperando comprobante"`, `FechaPago = now + 10 days`), reusing
the user's existing `CodigoUsuario` if the latest prior record has one and
minting a fresh unique 4-digit code otherwise, append it to the sheet and
arm the reminder; on any other answer return to `NOMBRE`.  `freshRid` is the
`uuid4().hex[:8]` identifier and `draws` feeds the mint loop (`none` only
when the modelled draws run out). -/
def confirmar_datos (text : String) (uid : Nat) (ud : UserData) (ahora : DateTime)
    (freshRid : String) (draws : List Nat) (st : BotState) : Option ConfirmarDatosRes :=
  if pyLower (pyStrip text) == "sí" || pyLower (pyStrip text) == "si" then
    let monto := ud.monto.getD 0
    let fecha_pago := addDays ahora.date 10
    let existing := find_user_record st.store uid
    let codigoOpt : Option String :=
      match existing with
      | some r =>
          if r.codigoUsuario != "" then some r.codigoUsuario
          else (mint_code st.store draws).map toString
      | none => (mint_code st.store draws).map toString
    match codigoOpt with
    | none => none
    | some codigo =>
        let record : Record :=
          { recordID := freshRid
            userID := uid
            nombre := ud.nombre
            cedula := ud.cedula
            codigoUsuario := codigo
            referidoPor := ud.referido
            monto := monto
            fechaInversion := ahora
            fechaPago := fecha_pago
            estado := "Esperando comprobante"
            comprobanteFileID := ""
            adminComentario := "" }
        some { next := ConvState.ESPERAR_COMPROBANTE,
               state := { st with
                          store := st.store ++ [record],
                          pending_checks := st.pending_checks ++ [freshRid] },
               newRecord := some record }
  else
    some { next := ConvState.NOMBRE, state := st, newRecord := none }

/-- Text of the `check_pending_after_delay` nudge. -/
def nudge_msg : String :=
  "¿Sigues ahí? Aún no hemos procesado tu comprobante. Si necesitas ayuda escribe \x27Soporte\x27."

/-- `check_pending_after_delay` at fire time (`T+600s`): re-read the record;
if the row is gone, return early (the pending entry is not even popped); if
`Estado` is non-empty and does not contain `"Aprobado"`, nudge the
participant; in every fall-through case pop the pending entry. -/
def check_pending_after_delay (st : BotState) (record_id : String) :
    BotState × Option (Nat × String) :=
  match find_record st.store record_id with
  | none => (st, none)
  | some (_, r) =>
      let nudge :=
        if r.estado != "" && !(strContains r.estado "Aprobado") then
          some (r.userID, nudge_msg)
        else none
      ({ st with pending_checks := st.pending_checks.filter (fun x => x != record_id) },
       nudge)

/-- The hard-coded `ADMIN_IDS` list of the source. -/
def ADMIN_IDS : List Nat := [8214551774, 1592839102]

/-- Participant notification of the approve path. -/
def aprobar_msg_user (codigo : String) (monto : Int) (fecha : String) : String :=
  "✅ Transacción aprobada!\n\n🔑 Tu código de usuario es: *INV-" ++ codigo ++
  "*\n\n📌 Monto: " ++ toString monto ++ " COP\n📅 Fecha de pago estimada: *" ++ fecha ++
  "*\n\nNota: los referidos se consignan el mismo día a partir de las 7:00 PM (excepciones domingos)."

/-- Reviewer confirmation of the approve path. -/
def aprobar_msg_admin (rid codigo : String) : String :=
  "Has aprobado la transacción (record " ++ rid ++ "). Código: INV-" ++ codigo

/-- Outbound effects of the `"aprobar"` branch: the code echoed in the
messages, the participant notification (chat id and text) and the reviewer
confirmation (chat id and text). -/
structure AprobarOut where
  assignedCode : Option String
  userMsg : Option (Nat × String)
  adminMsg : Option (Nat × String)
deriving DecidableEq, Repr

/-- The `"aprobar"` branch of `validar_transaccion`: if the row is found,
mint a fresh code when the `CodigoUsuario` cell is empty (never otherwise),
write `Estado = "Aprobado"`, notify the participant with the code and the
payout date `FechaInversion + 10 days`, confirm to the acting reviewer and
pop the pending reminder entry.  A missing row silently does nothing.
`none` only when the modelled mint draws run out. -/
def aprobar (admin_id : Nat) (record_id : String) (draws : List Nat) (st : BotState) :
    Option (BotState × AprobarOut) :=
  match find_record st.store record_id with
  | none => some (st, { assignedCode := none, userMsg := none, adminMsg := none })
  | some (row, r) =>
      let codigo_step : Option (List Record × String) :=
        if r.codigoUsuario == "" then
          (mint_code st.store draws).map (fun c =>
            (updateAt (fun r0 => { r0 with codigoUsuario := toString c }) st.store row,
             toString c))
        else some (st.store, r.codigoUsuario)
      match codigo_step with
      | none => none
      | some (store1, codigo_actual) =>
          let store2 := updateAt (fun r0 => { r0 with estado := "Aprobado" }) store1 row
          let fecha_pago_calc := fecha_str (addDays r.fechaInversion.date 10)
          some ({ st with
                  store := store2,
                  pending_checks := st.pending_checks.filter (fun x => x != record_id) },
                { assignedCode := some codigo_actual,
                  userMsg := some (r.userID, aprobar_msg_user codigo_actual r.monto fecha_pago_calc),
                  adminMsg := some (admin_id, aprobar_msg_admin record_id codigo_actual) })

/-- The `"rechazar"` branch: remember `admin_id ↦ record_id` in
`pending_rejects` and prompt that admin for the reason. -/
def rechazar_tap (admin_id : Nat) (record_id : String) (st : BotState) :
    BotState × Option Nat :=
  ({ st with pending_rejects :=
      (admin_id, record_id) :: st.pending_rejects.filter (fun p => p.1 != admin_id) },
   some admin_id)

/-- Split a character list at the first `'|'`, or `none` when there is no
bar at all. -/
def splitBar : List Char → Option (List Char × List Char)
  | [] => none
  | c :: rest =>
      if c == '|' then some ([], rest)
      else (splitBar rest).map (fun p => (c :: p.1, p.2))

/-- `data.split("|", 1)` guarded by the `"|" not in data` check. -/
def split_accion (data : String) : Option (String × String) :=
  (splitBar data.data).map (fun p => (String.mk p.1, String.mk p.2))

/-- Outbound effects of `validar_transaccion`. -/
structure VTOut where
  invalidMsg : Bool
  aprobar_out : Option AprobarOut
  rechazo_prompt : Option Nat
deriving DecidableEq, Repr

/-- `validar_transaccion`: dispatch the callback data `"<accion>|<rid>"` from
`caller` (the tapping user's id — note that no membership in `ADMIN_IDS` is
ever checked on this path). -/
def validar_transaccion (caller : Nat) (data : String) (draws : List Nat) (st : BotState) :
    Option (BotState × VTOut) :=
  match split_accion data with
  | none => some (st, { invalidMsg := true, aprobar_out := none, rechazo_prompt := none })
  | some (accion, record_id) =>
      if accion == "aprobar" then
        (aprobar caller record_id draws st).map (fun p =>
          (p.1, { invalidMsg := false, aprobar_out := some p.2, rechazo_prompt := none }))
      else if accion == "rechazar" then
        let (st', prompted) := rechazar_tap caller record_id st
        some (st', { invalidMsg := false, aprobar_out := none, rechazo_prompt := prompted })
      else some (st, { invalidMsg := false, aprobar_out := none, rechazo_prompt := none })

/-- Participant notification of the reject path, carrying the reason verbatim. -/
def rechazo_msg_user (motivo : String) : String :=
  "❌ Tu comprobante fue rechazado.\nMotivo: " ++ motivo ++ "\nPor favor revisa y vuelve a enviarlo."

/-- The `AdminComentario` cell written on rejection. -/
def rechazo_comentario (admin_id : Nat) (motivo : String) : String :=
  "Rechazado por " ++ toString admin_id ++ ": " ++ motivo

/-- Outbound effects of `admin_reason_handler`. -/
structure ReasonOut where
  handled : Bool
  userMsg : Option (Nat × String)
  adminMsg : Option (Nat × String)
deriving DecidableEq, Repr

/-- `admin_reason_handler`: a plain-text message from a user with a pending
reject is consumed as the reason; the pending entry is popped first, the row
(if found) gets `Estado = "Rechazado"` and the annotated comment, the
participant is notified with the verbatim reason and the admin gets a
completion note.  Texts from users with no pending reject are ignored. -/
def admin_reason_handler (admin_id : Nat) (text : String) (st : BotState) :
    BotState × ReasonOut :=
  match st.pending_rejects.lookup admin_id with
  | none => (st, { handled := false, userMsg := none, adminMsg := none })
  | some record_id =>
      let st1 : BotState :=
        { st with pending_rejects := st.pending_rejects.filter (fun p => p.1 != admin_id) }
      let motivo := pyStrip text
      let store2 :=
        match find_row_by_record_id st1.store record_id with
        | none => st1.store
        | some row =>
            updateAt (fun r0 =>
              { r0 with estado := "Rechazado"
                        adminComentario := rechazo_comentario admin_id motivo })
              st1.store row
      let st2 : BotState := { st1 with store := store2 }
      match find_record store2 record_id with
      | some (_, r) =>
          (st2, { handled := true,
                  userMsg := some (r.userID, rechazo_msg_user motivo),
                  adminMsg := some (admin_id, "Motivo enviado y usuario notificado: " ++ toString r.userID) })
      | none =>
          (st2, { handled := true,
                  userMsg := none,
                  adminMsg := some (admin_id,
                    "No encontré el record " ++ record_id ++ " para notificar al usuario, pero actualicé la hoja.") })

/-! ### Concrete fixtures for witnesses and counterexamples -/

/-- Empty `user_data`. -/
def udEmpty : UserData :=
  { nombre := "", cedula := "", referido := "", monto := none, ganancia := none }

/-- Timestamp fixture: 2024-01-01 00:00:00. -/
def dt2024 : DateTime := ⟨⟨2024, 1, 1⟩, 0⟩

/-- A submitted-proof row that has no assigned code yet. -/
def recPend : Record :=
  { recordID := "r1", userID := 77, nombre := "Ana Gomez", cedula := "123",
    codigoUsuario := "", referidoPor := "", monto := 250000,
    fechaInversion := dt2024, fechaPago := ⟨2024, 1, 11⟩,
    estado := "Comprobante enviado", comprobanteFileID := "f1", adminComentario := "" }

/-- A row already rejected by a reviewer. -/
def recRech : Record :=
  { recPend with recordID := "r2", userID := 88, estado := "Rechazado" }

/-- One undecided submission with an armed reminder. -/
def stPend : BotState := ⟨[recPend], [], ["r1"]⟩

/-- One rejected record with an armed reminder. -/
def stRech : BotState := ⟨[recRech], [], ["r2"]⟩

/-- Admin 8214551774 tapped reject on `"r1"` and owes a reason. -/
def stReject : BotState := ⟨[recPend], [(8214551774, "r1")], ["r1"]⟩

/-- `recPend` after approval with entropy draw 5 (code 1005). -/
def recAprov : Record := { recPend with codigoUsuario := "1005", estado := "Aprobado" }

/-- `stPend` after approval. -/
def stAprov : BotState := ⟨[recAprov], [], []⟩

/-- Outbound effects of approving `stPend` as admin `a` with draw 5. -/
def outApr (a : Nat) : AprobarOut :=
  { assignedCode := some "1005",
    userMsg := some (77, aprobar_msg_user "1005" 250000 (fecha_str (addDays ⟨2024, 1, 1⟩ 10))),
    adminMsg := some (a, aprobar_msg_admin "r1" "1005") }

/-- The record created by `confirmar_datos "sí"` for new user 9 on an empty
sheet with draw 5. -/
def recC9 : Record :=
  { recordID := "r9", userID := 9, nombre := "", cedula := "", codigoUsuario := "1005",
    referidoPor := "", monto := 0, fechaInversion := dt2024, fechaPago := ⟨2024, 1, 11⟩,
    estado := "Esperando comprobante", comprobanteFileID := "", adminComentario := "" }

/-- The full result of that `confirmar_datos` run. -/
def resC9 : ConfirmarDatosRes :=
  { next := ConvState.ESPERAR_COMPROBANTE,
    state := ⟨[recC9], [], ["r9"]⟩,
    newRecord := some recC9 }

/-- The second record of user 9, created by a re-investment registration on
a sheet already holding `recC9`: it reuses the code `"1005"`. -/
def recC10 : Record := { recC9 with recordID := "r10" }

/-- The full result of that reuse registration. -/
def resC10 : ConfirmarDatosRes :=
  { next := ConvState.ESPERAR_COMPROBANTE,
    state := ⟨[recC9, recC10], [], ["r10"]⟩,
    newRecord := some recC10 }

/-! ### Helper lemmas -/

/-- `Nat.toDigitsCore` only ever extends its accumulator. -/
theorem toDigitsCore_length_le (b : Nat) :
    ∀ (fuel n : Nat) (ds : List Char), ds.length ≤ (Nat.toDigitsCore b fuel n ds).length := by
  intro fuel
  induction fuel with
  | zero => intro n ds; simp [Nat.toDigitsCore]
  | succ fuel ih =>
      intro n ds
      simp only [Nat.toDigitsCore]
      split
      · simp
      · exact le_trans (by simp) (ih (n / b) _)

/-- The decimal rendering of a natural number is never the empty string. -/
theorem toString_nat_ne_empty (n : Nat) : toString n ≠ "" := by
  intro h
  have hd : (Nat.toDigits 10 n) = [] := congrArg String.data h
  have hlen : 1 ≤ (Nat.toDigits 10 n).length := by
    simp only [Nat.toDigits, Nat.toDigitsCore]
    split
    · simp
    · exact le_trans (by simp) (toDigitsCore_length_le 10 n _ _)
  rw [hd] at hlen
  simp at hlen

/-- Updating the row found by `find_record_aux` with a `RecordID`-preserving
edit is found again at the same index, edited. -/
theorem find_record_aux_updateAt (rid : String) (f : Record → Record)
    (hf : ∀ r, (f r).recordID = r.recordID) :
    ∀ (l : List Record) (i : Nat) (r : Record),
      find_record_aux rid l = some (i, r) →
      find_record_aux rid (updateAt f l i) = some (i, f r) := by
  intro l
  induction l with
  | nil => intro i r h; simp [find_record_aux] at h
  | cons a rest ih =>
      intro i r h
      by_cases ha : a.recordID == rid
      · simp only [find_record_aux, ha, if_true] at h
        obtain ⟨hi, hr⟩ := Prod.mk.injEq .. ▸ Option.some.injEq .. ▸ h
        subst hi
        simp only [updateAt, find_record_aux]
        rw [hf a, ha]
        simp [← hr]
      · simp only [find_record_aux, ha, if_false] at h
        obtain ⟨⟨j, r'⟩, hjr, hmap⟩ := Option.map_eq_some'.mp h
        obtain ⟨hj, hr'⟩ := Prod.mk.injEq .. ▸ hmap
        subst hj; subst hr'
        simp only [updateAt, find_record_aux, ha, if_false]
        rw [ih j r' hjr]
        rfl

/-- Updating the row found by `find_record_aux` with an edit that fixes that
row is a no-op on the sheet. -/
theorem updateAt_self (f : Record → Record) :
    ∀ (l : List Record) (rid : String) (i : Nat) (r : Record),
      find_record_aux rid l = some (i, r) → f r = r → updateAt f l i = l := by
  intro l
  induction l with
  | nil => intro rid i r h; simp [find_record_aux] at h
  | cons a rest ih =>
      intro rid i r h hfr
      by_cases ha : a.recordID == rid
      · simp only [find_record_aux, ha, if_true] at h
        obtain ⟨hi, hr⟩ := Prod.mk.injEq .. ▸ Option.some.injEq .. ▸ h
        subst hi
        simp only [updateAt]
        rw [← hr] at hfr
        rw [hfr]
      · simp only [find_record_aux, ha, if_false] at h
        obtain ⟨⟨j, r'⟩, hjr, hmap⟩ := Option.map_eq_some'.mp h
        obtain ⟨hj, hr'⟩ := Prod.mk.injEq .. ▸ hmap
        subst hj; subst hr'
        simp only [updateAt]
        rw [ih rid j r' hjr hfr]

/-- Filtering is idempotent. -/
theorem filter_idem {α : Type} (p : α → Bool) (l : List α) :
    (l.filter p).filter p = l.filter p := by
  induction l with
  | nil => rfl
  | cons a t ih =>
      cases h : p a <;> simp [List.filter_cons, h, ih]

/-- After removing every entry of key `a`, looking `a` up yields nothing. -/
theorem lookup_filter_self (l : List (Nat × String)) (a : Nat) :
    (l.filter (fun p => p.1 != a)).lookup a = none := by
  induction l with
  | nil => rfl
  | cons hd t ih =>
      cases h : hd.1 != a
      · simp [List.filter_cons, h, ih]
      · have hne : ¬(hd.1 = a) := by simpa using h
        have hba : (a == hd.1) = false :=
          beq_eq_false_iff_ne.mpr (fun he => hne he.symm)
        simp [List.filter_cons, h, List.lookup, hba, ih]

/-- A point edit that keeps `CodigoUsuario` keeps the whole code column. -/
theorem updateAt_map_codigo (f : Record → Record)
    (hf : ∀ r, (f r).codigoUsuario = r.codigoUsuario) :
    ∀ (l : List Record) (i : Nat),
      (updateAt f l i).map (fun r => r.codigoUsuario) = l.map (fun r => r.codigoUsuario) := by
  intro l
  induction l with
  | nil => intro i; rfl
  | cons a rest ih =>
      intro i
      cases i with
      | zero => simp [updateAt, hf]
      | succ j => simp [updateAt, ih]

/-- Specification of the mint loop: a returned code is a 4-digit number that
collides with no row of the sheet it was checked against. -/
theorem mint_code_spec (s : List Record) :
    ∀ (draws : List Nat) (c : Nat), mint_code s draws = some c →
      1000 ≤ c ∧ c ≤ 9999 ∧ find_user_by_code s (toString c) = none := by
  intro draws
  induction draws with
  | nil => intro c h; simp [mint_code] at h
  | cons d rest ih =>
      intro c h
      simp only [mint_code] at h
      split at h
      · exact ih c h
      · rename_i hq
        have hc : 1000 + d % 9000 = c := by
          simpa [randint_1000_9999] using h
        have hm : d % 9000 < 9000 := Nat.mod_lt _ (by omega)
        refine ⟨by omega, by omega, ?_⟩
        rw [← hc]
        have hnone : find_user_by_code s (toString (randint_1000_9999 d)) = none :=
          Option.not_isSome_iff_eq_none.mp (by simpa using hq)
        simpa [randint_1000_9999] using hnone

/-- Round-to-nearest-even lands within half a unit. -/
theorem abs_rne_sub_le (x : ℚ) : |(rne x : ℚ) - x| ≤ 1 / 2 := by
  have hf0 : ((⌊x⌋ : ℚ)) ≤ x := Int.floor_le x
  have hf1 : x < (⌊x⌋ : ℚ) + 1 := Int.lt_floor_add_one x
  unfold rne
  split
  · rename_i h1
    rw [abs_sub_comm, abs_of_nonneg (by linarith)]
    linarith
  · split
    · rename_i h1 h2
      push_cast
      rw [abs_of_nonneg (by linarith)]
      linarith
    · split
      · rename_i h1 h2 h3
        have hx : x - (⌊x⌋ : ℚ) = 1 / 2 := le_antisymm (not_lt.mp h2) (not_lt.mp h1)
        rw [abs_sub_comm, abs_of_nonneg (by linarith)]
        linarith
      · rename_i h1 h2 h3
        have hx : x - (⌊x⌋ : ℚ) = 1 / 2 := le_antisymm (not_lt.mp h2) (not_lt.mp h1)
        push_cast
        rw [abs_of_nonneg (by linarith)]
        linarith

/-- A rational strictly within half a unit of an integer rounds to it. -/
theorem rne_eq_of_near (n : Int) (x : ℚ) (h : |x - (n : ℚ)| < 1 / 2) : rne x = n := by
  rw [abs_lt] at h
  obtain ⟨hlo, hhi⟩ := h
  by_cases hc : (n : ℚ) ≤ x
  · have hfl : ⌊x⌋ = n := by
      rw [Int.floor_eq_iff]
      constructor
      · exact hc
      · linarith
    unfold rne
    rw [hfl]
    split
    · rfl
    · rename_i h1
      exfalso
      apply h1
      linarith
  · push_neg at hc
    have hfl : ⌊x⌋ = n - 1 := by
      rw [Int.floor_eq_iff]
      push_cast
      constructor
      · linarith
      · linarith
    unfold rne
    rw [hfl]
    split
    · rename_i h1
      exfalso
      push_cast at h1
      linarith
    · split
      · omega
      · rename_i h1 h2
        exfalso
        apply h2
        push_cast
        linarith

/-- Unfolding of `fpRound` when the binade exponent is known: rounding keeps
the scaled significand within half a unit. -/
theorem fpRound_err (p : ℚ) (s : Nat) (hlog : (52 : Int) - Int.log 2 p = (s : Int)) :
    |fpRound p - p| ≤ 1 / (2 * 2 ^ s) := by
  have he : Int.log 2 p = 52 - (s : Int) := by omega
  have hz : (2 : ℚ) ^ ((52 : Int) - Int.log 2 p) = (2 : ℚ) ^ (s : Nat) := by
    rw [hlog, zpow_natCast]
  have hzpos : (0 : ℚ) < 2 ^ s := by positivity
  have hinv : (2 : ℚ) ^ (Int.log 2 p - 52) = ((2 : ℚ) ^ (s : Nat))⁻¹ := by
    have : Int.log 2 p - 52 = -(s : Int) := by omega
    rw [this, zpow_neg, zpow_natCast]
  unfold fpRound
  rw [hz, hinv]
  have hrne := abs_rne_sub_le (p * 2 ^ s)
  have key : (rne (p * 2 ^ s) : ℚ) * ((2 : ℚ) ^ s)⁻¹ - p
      = ((rne (p * 2 ^ s) : ℚ) - p * 2 ^ s) * ((2 : ℚ) ^ s)⁻¹ := by
    field_simp
    ring
  rw [key, abs_mul, abs_inv, abs_of_pos hzpos]
  calc |(rne (p * 2 ^ s) : ℚ) - p * 2 ^ s| * ((2 : ℚ) ^ s)⁻¹
      ≤ (1 / 2) * ((2 : ℚ) ^ s)⁻¹ :=
        mul_le_mul_of_nonneg_right hrne (by positivity)
    _ = 1 / (2 * 2 ^ s) := by
        rw [div_eq_mul_inv, div_eq_mul_inv, mul_inv]
        ring

/-- Unfolding of `fpRound` when the scaled value is within half a unit of an
integer: the rounding returns exactly that integer, rescaled. -/
theorem fpRound_eq_of_near (p : ℚ) (s : Nat) (m : Int)
    (hlog : (52 : Int) - Int.log 2 p = (s : Int))
    (h : |p * 2 ^ s - (m : ℚ)| < 1 / 2) :
    fpRound p = (m : ℚ) / 2 ^ s := by
  have hz : (2 : ℚ) ^ ((52 : Int) - Int.log 2 p) = (2 : ℚ) ^ (s : Nat) := by
    rw [hlog, zpow_natCast]
  have hinv : (2 : ℚ) ^ (Int.log 2 p - 52) = ((2 : ℚ) ^ (s : Nat))⁻¹ := by
    have : Int.log 2 p - 52 = -(s : Int) := by omega
    rw [this, zpow_neg, zpow_natCast]
  unfold fpRound
  rw [hz, hinv, rne_eq_of_near m _ h, div_eq_mul_inv]

/-- The binary64 value of `1.9` expanded against the exact `19/10`. -/
theorem fl19_expand : fl19 = 19 / 10 - 1 / (5 * 2 ^ 51) := by
  norm_num [fl19]

/-- Truncating a value within `2 ^ (-33)` of `19 * monto / 10` recovers the
integer quotient when `monto` is not a multiple of ten (the fractional part
is then at least one tenth away from both neighbouring integers). -/
theorem truncQ_near_nondiv (monto : Nat) (d : ℚ) (h10 : ¬ (10 ∣ monto))
    (hd : |d - ((19 * monto : Nat) : ℚ) / 10| ≤ 1 / 2 ^ 33) :
    truncQ d = ((19 * monto / 10 : Nat) : Int) := by
  have hcop : ¬ (10 ∣ 19 * monto) := by
    intro hdvd
    exact h10 ((show Nat.Coprime 10 19 by decide).dvd_of_dvd_mul_left hdvd)
  have hq1 : 1 ≤ 19 * monto % 10 :=
    Nat.one_le_iff_ne_zero.mpr (fun h0 => hcop (Nat.dvd_of_mod_eq_zero h0))
  have hq9 : 19 * monto % 10 ≤ 9 := by omega
  have hdm : 19 * monto = 10 * (19 * monto / 10) + 19 * monto % 10 := by omega
  have hsplitq : ((19 * monto : Nat) : ℚ) / 10
      = ((19 * monto / 10 : Nat) : ℚ) + ((19 * monto % 10 : Nat) : ℚ) / 10 := by
    have hcast : ((19 * monto : Nat) : ℚ)
        = 10 * ((19 * monto / 10 : Nat) : ℚ) + ((19 * monto % 10 : Nat) : ℚ) := by
      exact_mod_cast congrArg (fun n => ((n : Nat) : ℚ)) hdm
    rw [hcast]
    ring
  rcases abs_le.mp hd with ⟨hdlo, hdhi⟩
  have h110 : (1 : ℚ) / 10 ≤ ((19 * monto % 10 : Nat) : ℚ) / 10 := by
    have : (1 : ℚ) ≤ ((19 * monto % 10 : Nat) : ℚ) := by exact_mod_cast hq1
    linarith
  have h910 : ((19 * monto % 10 : Nat) : ℚ) / 10 ≤ 9 / 10 := by
    have : ((19 * monto % 10 : Nat) : ℚ) ≤ 9 := by exact_mod_cast hq9
    linarith
  have hsmall : (1 : ℚ) / 2 ^ 33 ≤ 1 / 20 := by norm_num
  have hF0 : (0 : ℚ) ≤ ((19 * monto / 10 : Nat) : ℚ) := by positivity
  have hdgtF : ((19 * monto / 10 : Nat) : ℚ) ≤ d := by linarith
  have hdltF1 : d < ((19 * monto / 10 : Nat) : ℚ) + 1 := by linarith
  have hfd : ⌊d⌋ = ((19 * monto / 10 : Nat) : Int) := by
    rw [Int.floor_eq_iff]
    constructor
    · push_cast
      exact hdgtF
    · push_cast
      exact hdltF1
  unfold truncQ
  rw [if_pos (le_trans hF0 hdgtF), hfd]

/-- C6: for every amount in the accepted range `200000..500000`, CPython's
`int(monto * 1.9)` — binary64 multiplication by the rounded literal `1.9`
followed by truncation — equals the exact integer `floor(19 * monto / 10)`;
in this range the rounding never crosses an integer boundary. -/
theorem claim_C6_payout_floor (monto : Nat) (h1 : 200000 ≤ monto) (h2 : monto ≤ 500000) :
    ganancia_of ((monto : Int)) = ((19 * monto / 10 : Nat) : Int) := by
  have hq1 : (200000 : ℚ) ≤ (monto : ℚ) := by exact_mod_cast h1
  have hq2 : ((monto : ℚ)) ≤ 500000 := by exact_mod_cast h2
  have hflpos : (0 : ℚ) < fl19 := by norm_num [fl19]
  set p : ℚ := (monto : ℚ) * fl19 with hp
  have hprep : p = (19 * (monto : ℚ)) / 10 - (monto : ℚ) / (5 * 2 ^ 51) := by
    rw [hp, fl19_expand]
    ring
  have hplo : (262144 : ℚ) ≤ p := by
    have ha : (262144 : ℚ) ≤ 200000 * fl19 := by norm_num [fl19]
    have hb : (200000 : ℚ) * fl19 ≤ (monto : ℚ) * fl19 :=
      mul_le_mul_of_nonneg_right hq1 (le_of_lt hflpos)
    rw [hp]
    linarith
  have hphi : p < 1048576 := by
    have ha : (monto : ℚ) * fl19 ≤ 500000 * fl19 :=
      mul_le_mul_of_nonneg_right hq2 (le_of_lt hflpos)
    have hb : (500000 : ℚ) * fl19 < 1048576 := by norm_num [fl19]
    rw [hp]
    linarith
  have hppos : (0 : ℚ) < p := by linarith
  have hlog_lo : (18 : ℤ) ≤ Int.log 2 p := by
    refine (Int.zpow_le_iff_le_log (by norm_num) hppos).mp ?_
    have hz : ((2 : ℕ) : ℚ) ^ (18 : ℤ) = 262144 := by norm_num
    rw [hz]
    exact hplo
  have hlog_hi : Int.log 2 p < 20 := by
    refine (Int.lt_zpow_iff_log_lt (by norm_num) hppos).mp ?_
    have hz : ((2 : ℕ) : ℚ) ^ (20 : ℤ) = 1048576 := by norm_num
    rw [hz]
    exact hphi
  have hcast : (((monto : Int)) : ℚ) = (monto : ℚ) := by push_cast; ring
  by_cases h10 : 10 ∣ monto
  · obtain ⟨k, hk⟩ := h10
    have hk50 : k ≤ 50000 := by omega
    have hkq : ((k : ℚ)) ≤ 50000 := by exact_mod_cast hk50
    have hkpq : ((19 * k : Int) : ℚ) = p + (k : ℚ) / 2 ^ 50 := by
      rw [hprep, hk]
      push_cast
      ring
    have hk250 : (k : ℚ) / 2 ^ 50 < 1 := by
      rw [div_lt_one (by positivity)]
      calc (k : ℚ) ≤ 50000 := hkq
        _ < 2 ^ 50 := by norm_num
    rcases (by omega : Int.log 2 p = 18 ∨ Int.log 2 p = 19) with hE | hE
    · have hup : p < 524288 := by
        have h0 := Int.lt_zpow_succ_log_self (by norm_num : 1 < 2) p
        rw [hE] at h0
        have hz : ((2 : ℕ) : ℚ) ^ ((18 : ℤ) + 1) = 524288 := by norm_num
        rwa [hz] at h0
      have hkI : (19 * k : Int) ≤ 524288 := by
        have hc : ((19 * k : Int) : ℚ) < 524289 := by
          rw [hkpq]
          linarith
        have h' : (19 * k : Int) < 524289 := by exact_mod_cast hc
        omega
      have hklt : (k : ℚ) / 2 ^ 16 < 1 / 2 := by
        have hkn : k < 32768 := by omega
        rw [div_lt_iff₀ (by positivity)]
        calc (k : ℚ) < 32768 := by exact_mod_cast hkn
          _ = 1 / 2 * 2 ^ 16 := by norm_num
      have hxid : p * 2 ^ (34 : ℕ) = ((19 * k * 2 ^ 34 : Int) : ℚ) - (k : ℚ) / 2 ^ 16 := by
        rw [hprep, hk]
        push_cast
        ring
      have hnear : |p * 2 ^ (34 : ℕ) - ((19 * k * 2 ^ 34 : Int) : ℚ)| < 1 / 2 := by
        rw [hxid]
        have harr : ((19 * k * 2 ^ 34 : Int) : ℚ) - (k : ℚ) / 2 ^ 16 - ((19 * k * 2 ^ 34 : Int) : ℚ)
            = -((k : ℚ) / 2 ^ 16) := by ring
        rw [harr, abs_neg, abs_of_nonneg (by positivity)]
        exact hklt
      have hfp := fpRound_eq_of_near p 34 (19 * k * 2 ^ 34) (by rw [hE]; norm_num) hnear
      have hfp' : fpRound p = ((19 * k : Int) : ℚ) := by
        rw [hfp, div_eq_iff (by positivity)]
        push_cast
        ring
      show truncQ (fpRound (((monto : Int) : ℚ) * fl19)) = _
      rw [hcast, ← hp, hfp']
      unfold truncQ
      rw [if_pos (by push_cast; positivity), Int.floor_intCast, hk]
      have hdiv : (19 * (10 * k)) / 10 = 19 * k := by omega
      rw [hdiv]
      push_cast
      ring
    · have hkI : (19 * k : Int) ≤ 1048576 := by
        have hc : ((19 * k : Int) : ℚ) < 1048577 := by
          rw [hkpq]
          linarith
        have h' : (19 * k : Int) < 1048577 := by exact_mod_cast hc
        omega
      have hklt : (k : ℚ) / 2 ^ 17 < 1 / 2 := by
        have hkn : k < 65536 := by omega
        rw [div_lt_iff₀ (by positivity)]
        calc (k : ℚ) < 65536 := by exact_mod_cast hkn
          _ = 1 / 2 * 2 ^ 17 := by norm_num
      have hxid : p * 2 ^ (33 : ℕ) = ((19 * k * 2 ^ 33 : Int) : ℚ) - (k : ℚ) / 2 ^ 17 := by
        rw [hprep, hk]
        push_cast
        ring
      have hnear : |p * 2 ^ (33 : ℕ) - ((19 * k * 2 ^ 33 : Int) : ℚ)| < 1 / 2 := by
        rw [hxid]
        have harr : ((19 * k * 2 ^ 33 : Int) : ℚ) - (k : ℚ) / 2 ^ 17 - ((19 * k * 2 ^ 33 : Int) : ℚ)
            = -((k : ℚ) / 2 ^ 17) := by ring
        rw [harr, abs_neg, abs_of_nonneg (by positivity)]
        exact hklt
      have hfp := fpRound_eq_of_near p 33 (19 * k * 2 ^ 33) (by rw [hE]; norm_num) hnear
      have hfp' : fpRound p = ((19 * k : Int) : ℚ) := by
        rw [hfp, div_eq_iff (by positivity)]
        push_cast
        ring
      show truncQ (fpRound (((monto : Int) : ℚ) * fl19)) = _
      rw [hcast, ← hp, hfp']
      unfold truncQ
      rw [if_pos (by push_cast; positivity), Int.floor_intCast, hk]
      have hdiv : (19 * (10 * k)) / 10 = 19 * k := by omega
      rw [hdiv]
      push_cast
      ring
  · have herr : |fpRound p - p| ≤ 1 / 2 ^ 34 := by
      rcases (by omega : Int.log 2 p = 18 ∨ Int.log 2 p = 19) with hE | hE
      · have h0 := fpRound_err p 34 (by rw [hE]; norm_num)
        calc |fpRound p - p| ≤ 1 / (2 * 2 ^ (34 : ℕ)) := h0
          _ ≤ 1 / 2 ^ 34 := by norm_num
      · have h0 := fpRound_err p 33 (by rw [hE]; norm_num)
        calc |fpRound p - p| ≤ 1 / (2 * 2 ^ (33 : ℕ)) := h0
          _ = 1 / 2 ^ 34 := by norm_num
    have hrep : |p - ((19 * monto : Nat) : ℚ) / 10| ≤ 1 / 2 ^ 34 := by
      have harr : p - ((19 * monto : Nat) : ℚ) / 10 = -((monto : ℚ) / (5 * 2 ^ 51)) := by
        rw [hprep]
        push_cast
        ring
      rw [harr, abs_neg, abs_of_nonneg (by positivity)]
      rw [div_le_div_iff₀ (by positivity) (by positivity)]
      calc (monto : ℚ) * 2 ^ 34 ≤ 500000 * 2 ^ 34 :=
            mul_le_mul_of_nonneg_right hq2 (by positivity)
        _ ≤ 1 * (5 * 2 ^ 51) := by norm_num
    have htot : |fpRound p - ((19 * monto : Nat) : ℚ) / 10| ≤ 1 / 2 ^ 33 := by
      calc |fpRound p - ((19 * monto : Nat) : ℚ) / 10|
          ≤ |fpRound p - p| + |p - ((19 * monto : Nat) : ℚ) / 10| := abs_sub_le _ _ _
        _ ≤ 1 / 2 ^ 34 + 1 / 2 ^ 34 := add_le_add herr hrep
        _ = 1 / 2 ^ 33 := by norm_num
    show truncQ (fpRound (((monto : Int) : ℚ) * fl19)) = _
    rw [hcast, ← hp]
    exact truncQ_near_nondiv monto (fpRound p) h10 htot

/-- C6 witness: the spec's own example, `amount = 300000` pays out `570000`. -/
theorem claim_C6_witness :
    200000 ≤ 300000 ∧ 300000 ≤ 500000 ∧ ganancia_of ((300000 : Nat) : Int) = 570000 := by
  refine ⟨by norm_num, by norm_num, ?_⟩
  rw [claim_C6_payout_floor 300000 (by norm_num) (by norm_num)]
  norm_num

/-- C10: every code returned by the mint loop — the one loop shared verbatim
by registration (`confirmar_datos`) and approval (`validar_transaccion`) —
is a 4-digit number in `1000..9999`, and at the moment the loop returns,
looking that code up in the sheet finds nothing. -/
theorem claim_C10_mint_fresh (s : List Record) (draws : List Nat) (c : Nat)
    (h : mint_code s draws = some c) :
    1000 ≤ c ∧ c ≤ 9999 ∧ find_user_by_code s (toString c) = none :=
  mint_code_spec s draws c h

/-- C10 witness: minting on an empty sheet with draw 5 yields 1005. -/
theorem claim_C10_witness :
    1000 ≤ 1005 ∧ 1005 ≤ 9999 ∧ find_user_by_code [] (toString 1005) = none :=
  claim_C10_mint_fresh [] [5] 1005 rfl

/-- C2 counterexample: at fire time the record is already `Rechazado`, yet
the nudge is still sent, because the code only tests `"Aprobado" not in
estado` and never checks for rejection. -/
theorem claim_C2_counterexample :
    (find_record stRech.store "r2").map (fun p => p.2.estado) = some "Rechazado" ∧
    (check_pending_after_delay stRech "r2").2 = some (88, nudge_msg) := by
  exact ⟨rfl, rfl⟩

/-- C2 amended: the fire-time nudge is sent iff the row still exists and its
`Estado` is non-empty and does not contain `"Aprobado"`; in particular a
record already `Rechazado` is nudged as well, and any nudge goes to the
record's own participant. -/
theorem claim_C2_amended (st : BotState) (rid : String) :
    ((check_pending_after_delay st rid).2.isSome = true ↔
      ∃ i r, find_record st.store rid = some (i, r) ∧ r.estado ≠ "" ∧
        strContains r.estado "Aprobado" = false) ∧
    ((check_pending_after_delay st rid).2 = none ∨
      ∃ i r, find_record st.store rid = some (i, r) ∧
        (check_pending_after_delay st rid).2 = some (r.userID, nudge_msg)) := by
  cases hf : find_record st.store rid with
  | none =>
      constructor
      · simp [check_pending_after_delay, hf]
      · left
        simp [check_pending_after_delay, hf]
  | some ir =>
      obtain ⟨i, r⟩ := ir
      cases he : (r.estado != "") <;> cases hc : strContains r.estado "Aprobado" <;>
        constructor <;>
        simp [check_pending_after_delay, hf, he, hc] <;>
        first
        | (simpa using he)
        | (exact ⟨i, r, ⟨rfl, rfl⟩, by simpa using he, hc⟩)
        | (exact ⟨i, r, ⟨rfl, rfl⟩, rfl⟩)

/-- C3, evaluated at the failing input: user 4242 is not in `ADMIN_IDS`, yet
its `"aprobar"` callback is processed in full — the record flips to
`Aprobado` and the assigned code is echoed back to the unauthorised
caller. -/
theorem claim_C3_unauthorized_approve :
    (4242 ∉ ADMIN_IDS) ∧
    ((validar_transaccion 4242 "aprobar|r1" [5] stPend).map
        (fun p => ((find_record p.1.store "r1").map (fun q => q.2.estado),
                   p.2.aprobar_out.map (fun o => o.assignedCode))) =
      some (some "Aprobado", some (some "1005"))) := by
  constructor
  · decide
  · rfl

/-- C5: the amount text is accepted iff it parses to an integer in
`200000..500000`; an accepted amount is recorded in `user_data` and the
dialogue advances to the confirmation step; anything else re-prompts in
`MONTO` with `user_data` untouched. -/
theorem claim_C5_amount_gate (text : String) (ud : UserData) :
    ((recibir_monto text ud).1 = ConvState.CONFIRMAR_INVERSION ↔
      ∃ a : Int, int_of_str (pyStrip (stripDots (pyStrip text))) = some a ∧
        200000 ≤ a ∧ a ≤ 500000) ∧
    ((recibir_monto text ud).1 = ConvState.CONFIRMAR_INVERSION ∨
      recibir_monto text ud = (ConvState.MONTO, ud)) ∧
    (∀ a : Int, int_of_str (pyStrip (stripDots (pyStrip text))) = some a →
      200000 ≤ a → a ≤ 500000 → (recibir_monto text ud).2.monto = some a) := by
  unfold recibir_monto
  cases hm : int_of_str (pyStrip (stripDots (pyStrip text))) with
  | none => simp
  | some a =>
      by_cases hr : 200000 ≤ a ∧ a ≤ 500000
      · refine ⟨?_, ?_, ?_⟩
        · simp only [hr, if_true]
          constructor
          · intro _
            exact ⟨a, rfl, hr⟩
          · intro _
            rfl
        · left
          simp [hr]
        · intro b hb _ _
          obtain hba : a = b := by
            have := hb
            simp at this
            exact this
          simp [hr, ← hba]
      · refine ⟨?_, ?_, ?_⟩
        · simp only [hr, if_false]
          constructor
          · intro h'
            cases h'
          · rintro ⟨b, hb, hb1, hb2⟩
            obtain hba : a = b := by
              have := hb
              simp at this
              exact this
            exact absurd ⟨hba ▸ hb1, hba ▸ hb2⟩ hr
        · right
          simp [hr]
        · intro b hb hb1 hb2
          obtain hba : a = b := by
            have := hb
            simp at this
            exact this
          exact absurd ⟨hba ▸ hb1, hba ▸ hb2⟩ hr

/-- C5 witness: `"250.000"` parses to 250000, is accepted and recorded. -/
theorem claim_C5_witness :
    ((recibir_monto "250.000" udEmpty).1 = ConvState.CONFIRMAR_INVERSION ↔
      ∃ a : Int, int_of_str (pyStrip (stripDots (pyStrip "250.000"))) = some a ∧
        200000 ≤ a ∧ a ≤ 500000) ∧
    (recibir_monto "250.000" udEmpty).2.monto = some 250000 :=
  ⟨(claim_C5_amount_gate "250.000" udEmpty).1,
   (claim_C5_amount_gate "250.000" udEmpty).2.2 250000 rfl (by norm_num) (by norm_num)⟩

/-- Unfolding of `aprobar` when the row is found and already carries a code:
no mint happens, the row only gets `Estado = "Aprobado"`. -/
theorem aprobar_of_nonempty_code (a : Nat) (rid : String) (draws : List Nat) (st : BotState)
    (i : Nat) (r : Record) (hir : find_record st.store rid = some (i, r))
    (hc : r.codigoUsuario ≠ "") :
    aprobar a rid draws st = some
      ({ st with
         store := updateAt (fun r0 => { r0 with estado := "Aprobado" }) st.store i,
         pending_checks := st.pending_checks.filter (fun x => x != rid) },
       { assignedCode := some r.codigoUsuario,
         userMsg := some (r.userID, aprobar_msg_user r.codigoUsuario r.monto
           (fecha_str (addDays r.fechaInversion.date 10))),
         adminMsg := some (a, aprobar_msg_admin rid r.codigoUsuario) }) := by
  have hb : (r.codigoUsuario == "") = false := beq_eq_false_iff_ne.mpr hc
  unfold aprobar
  rw [hir]
  simp [hb]

/-- Unfolding of `aprobar` when the row is found with an empty code cell and
the mint succeeds: the code is written first, then the status. -/
theorem aprobar_of_empty_code (a : Nat) (rid : String) (draws : List Nat) (st : BotState)
    (i : Nat) (r : Record) (c : Nat) (hir : find_record st.store rid = some (i, r))
    (hc : r.codigoUsuario = "") (hm : mint_code st.store draws = some c) :
    aprobar a rid draws st = some
      ({ st with
         store := updateAt (fun r0 => { r0 with estado := "Aprobado" })
           (updateAt (fun r0 => { r0 with codigoUsuario := toString c }) st.store i) i,
         pending_checks := st.pending_checks.filter (fun x => x != rid) },
       { assignedCode := some (toString c),
         userMsg := some (r.userID, aprobar_msg_user (toString c) r.monto
           (fecha_str (addDays r.fechaInversion.date 10))),
         adminMsg := some (a, aprobar_msg_admin rid (toString c)) }) := by
  unfold aprobar
  rw [hir]
  simp [hc, hm]

/-- Rebuilding a state from its own store and pending list is the identity. -/
theorem botstate_rebuild (b : BotState) (s : List Record) (pc : List String)
    (hs : s = b.store) (hp : pc = b.pending_checks) :
    ({ b with store := s, pending_checks := pc } : BotState) = b := by
  cases b
  subst hs
  subst hp
  rfl

/-- C1: approving the same record twice yields the same `AssignedCode` both
times; the second approval changes nothing in the state (the status write is
the value already present) and still sends the reviewer a success
confirmation. -/
theorem claim_C1_approve_idempotent (st : BotState) (rid : String) (a1 a2 : Nat)
    (draws1 draws2 : List Nat) (st1 st2 : BotState) (out1 out2 : AprobarOut)
    (hfound : (find_record st.store rid).isSome = true)
    (h1 : aprobar a1 rid draws1 st = some (st1, out1))
    (h2 : aprobar a2 rid draws2 st1 = some (st2, out2)) :
    out2.assignedCode = out1.assignedCode ∧ out1.assignedCode.isSome = true ∧
    st2 = st1 ∧ out2.adminMsg.isSome = true := by
  obtain ⟨⟨i, r⟩, hir⟩ := Option.isSome_iff_exists.mp hfound
  by_cases hc : r.codigoUsuario = ""
  · cases hm : mint_code st.store draws1 with
    | none =>
        exfalso
        unfold aprobar at h1
        rw [hir] at h1
        simp [hc, hm] at h1
    | some c =>
        rw [aprobar_of_empty_code a1 rid draws1 st i r c hir hc hm] at h1
        injection Option.some.inj h1 with ha hb
        have hira : find_record_aux rid
            (updateAt (fun r0 => { r0 with codigoUsuario := toString c }) st.store i)
            = some (i, { r with codigoUsuario := toString c }) :=
          find_record_aux_updateAt rid (fun r0 => { r0 with codigoUsuario := toString c })
            (fun r0 => rfl) st.store i r hir
        have hirb : find_record_aux rid
            (updateAt (fun r0 => { r0 with estado := "Aprobado" })
              (updateAt (fun r0 => { r0 with codigoUsuario := toString c }) st.store i) i)
            = some (i, { r with codigoUsuario := toString c, estado := "Aprobado" }) :=
          find_record_aux_updateAt rid (fun r0 => { r0 with estado := "Aprobado" })
            (fun r0 => rfl) _ i _ hira
        have hirS : find_record st1.store rid
            = some (i, { r with codigoUsuario := toString c, estado := "Aprobado" }) := by
          rw [← ha]
          exact hirb
        rw [aprobar_of_nonempty_code a2 rid draws2 st1 i _ hirS
          (toString_nat_ne_empty c)] at h2
        injection Option.some.inj h2 with ha2 hb2
        refine ⟨?_, ?_, ?_, ?_⟩
        · rw [← hb2, ← hb]
        · rw [← hb]
          rfl
        · rw [← ha2]
          refine botstate_rebuild st1 _ _ ?_ ?_
          · exact updateAt_self (fun r0 => { r0 with estado := "Aprobado" })
              st1.store rid i _ hirS rfl
          · rw [← ha]
            exact filter_idem _ st.pending_checks
        · rw [← hb2]
          rfl
  · rw [aprobar_of_nonempty_code a1 rid draws1 st i r hir hc] at h1
    injection Option.some.inj h1 with ha hb
    have hirb : find_record_aux rid
        (updateAt (fun r0 => { r0 with estado := "Aprobado" }) st.store i)
        = some (i, { r with estado := "Aprobado" }) :=
      find_record_aux_updateAt rid (fun r0 => { r0 with estado := "Aprobado" })
        (fun r0 => rfl) st.store i r hir
    have hirS : find_record st1.store rid = some (i, { r with estado := "Aprobado" }) := by
      rw [← ha]
      exact hirb
    rw [aprobar_of_nonempty_code a2 rid draws2 st1 i _ hirS hc] at h2
    injection Option.some.inj h2 with ha2 hb2
    refine ⟨?_, ?_, ?_, ?_⟩
    · rw [← hb2, ← hb]
    · rw [← hb]
      rfl
    · rw [← ha2]
      refine botstate_rebuild st1 _ _ ?_ ?_
      · exact updateAt_self (fun r0 => { r0 with estado := "Aprobado" })
          st1.store rid i _ hirS rfl
      · rw [← ha]
        exact filter_idem _ st.pending_checks
    · rw [← hb2]
      rfl

/-- C1 witness: approving `stPend`'s record twice — first mints code 1005,
the second run reuses it, changes nothing and still confirms. -/
theorem claim_C1_witness :
    (outApr 2).assignedCode = (outApr 1).assignedCode ∧
    (outApr 1).assignedCode.isSome = true ∧
    stAprov = stAprov ∧ (outApr 2).adminMsg.isSome = true :=
  claim_C1_approve_idempotent stPend "r1" 1 2 [5] [] stAprov stAprov
    (outApr 1) (outApr 2) rfl rfl rfl

/-- The rejection comment always starts with the `"Rechazado por "` prefix,
so it is never the empty string. -/
theorem rechazo_comentario_ne_empty (a : Nat) (m : String) :
    rechazo_comentario a m ≠ "" := by
  intro h
  have hdata : (rechazo_comentario a m).data = [] := by rw [h]
  rw [rechazo_comentario, String.data_append, String.data_append,
    String.data_append] at hdata
  have h1 : "Rechazado por ".data ≠ [] := by decide
  simp only [List.append_eq_nil] at hdata
  exact h1 hdata.1.1.1

/-- Full characterisation of `admin_reason_handler` when the admin owes a
reason and the record row is found: the pending entry is popped, the row is
finalised as `Rechazado` with the annotated comment, and both parties are
notified. -/
theorem admin_reason_spec (admin : Nat) (text rid : String) (st : BotState)
    (i : Nat) (r : Record)
    (hp : st.pending_rejects.lookup admin = some rid)
    (hr : find_record st.store rid = some (i, r)) :
    admin_reason_handler admin text st =
      ({ st with
         store := updateAt (fun r0 =>
           { r0 with
                     estado := "Rechazado",
                     adminComentario := rechazo_comentario admin (pyStrip text) }) st.store i,
         pending_rejects := st.pending_rejects.filter (fun p => p.1 != admin) },
       { handled := true,
         userMsg := some (r.userID, rechazo_msg_user (pyStrip text)),
         adminMsg := some (admin,
           "Motivo enviado y usuario notificado: " ++ toString r.userID) }) := by
  have hr' : find_record_aux rid st.store = some (i, r) := hr
  have hrow : find_row_by_record_id st.store rid = some i := by
    unfold find_row_by_record_id
    rw [hr']
    rfl
  have hupd : find_record_aux rid
      (updateAt (fun r0 =>
        { r0 with
                  estado := "Rechazado",
                  adminComentario := rechazo_comentario admin (pyStrip text) }) st.store i)
      = some (i, { r with
                   estado := "Rechazado",
                   adminComentario := rechazo_comentario admin (pyStrip text) }) :=
    find_record_aux_updateAt rid (fun r0 =>
        { r0 with
                  estado := "Rechazado",
                  adminComentario := rechazo_comentario admin (pyStrip text) })
      (fun r0 => rfl) st.store i r hr'
  unfold admin_reason_handler
  rw [hp]
  simp only [hrow, find_record, hupd]

/-- C4 counterexample: after the reviewer sends `"Comprobante ilegible"`,
the stored `AdminComentario` is the annotated string, not the bare reason
the claim promises. -/
theorem claim_C4_counterexample :
    ((admin_reason_handler 8214551774 "Comprobante ilegible" stReject).1.store.map
        (fun r => r.adminComentario) =
      ["Rechazado por 8214551774: Comprobante ilegible"]) ∧
    ¬("Rechazado por 8214551774: Comprobante ilegible" = "Comprobante ilegible") := by
  constructor
  · rfl
  · decide

/-- C4 amended: the next text from an admin owing a reason finalises the
record with `Estado = "Rechazado"` and `AdminComentario = "Rechazado por
<admin>: <reason>"` (the trimmed reason embedded verbatim, not stored bare),
notifies the participant with a message carrying the exact reason, and
clears the awaiting-reason state. -/
theorem claim_C4_reject_reason (admin : Nat) (text rid : String) (st : BotState)
    (i : Nat) (r : Record)
    (hp : st.pending_rejects.lookup admin = some rid)
    (hr : find_record st.store rid = some (i, r)) :
    (admin_reason_handler admin text st).2.userMsg
      = some (r.userID, rechazo_msg_user (pyStrip text)) ∧
    (rechazo_msg_user (pyStrip text)).data =
      "❌ Tu comprobante fue rechazado.\nMotivo: ".data ++ (pyStrip text).data ++
        "\nPor favor revisa y vuelve a enviarlo.".data ∧
    find_record (admin_reason_handler admin text st).1.store rid
      = some (i, { r with
                   estado := "Rechazado",
                   adminComentario := rechazo_comentario admin (pyStrip text) }) ∧
    (admin_reason_handler admin text st).1.pending_rejects.lookup admin = none := by
  rw [admin_reason_spec admin text rid st i r hp hr]
  refine ⟨rfl, ?_, ?_, ?_⟩
  · rw [rechazo_msg_user, String.data_append, String.data_append]
  · exact find_record_aux_updateAt rid (fun r0 =>
        { r0 with
                  estado := "Rechazado",
                  adminComentario := rechazo_comentario admin (pyStrip text) })
      (fun r0 => rfl) st.store i r hr
  · exact lookup_filter_self st.pending_rejects admin

/-- C4 witness: the spec's scenario, reason `"Comprobante ilegible"`. -/
theorem claim_C4_witness :
    (admin_reason_handler 8214551774 "Comprobante ilegible" stReject).2.userMsg
      = some (77, rechazo_msg_user (pyStrip "Comprobante ilegible")) ∧
    (admin_reason_handler 8214551774 "Comprobante ilegible" stReject).1.pending_rejects.lookup
      8214551774 = none :=
  ⟨(claim_C4_reject_reason 8214551774 "Comprobante ilegible" "r1" stReject 0 recPend
      rfl rfl).1,
   (claim_C4_reject_reason 8214551774 "Comprobante ilegible" "r1" stReject 0 recPend
      rfl rfl).2.2.2⟩

/-- C7 counterexample: a whitespace-only reviewer message is consumed as an
empty reason — the record is finalised `Rechazado` and the participant is
notified with an empty `Motivo:` line, so no non-empty reason is required. -/
theorem claim_C7_counterexample :
    pyStrip " " = "" ∧
    ((admin_reason_handler 8214551774 " " stReject).1.store.map (fun r => r.estado) =
      ["Rechazado"]) ∧
    (admin_reason_handler 8214551774 " " stReject).2.userMsg =
      some (77, rechazo_msg_user "") := by
  refine ⟨rfl, rfl, rfl⟩

/-- C7 amended: the reason text is not validated — any text, even one that
trims to empty, finalises the rejection and triggers the participant
notification; the stored `AdminComentario` is nevertheless always non-empty
thanks to its `"Rechazado por "` prefix. -/
theorem claim_C7_reason_unvalidated (admin : Nat) (text rid : String) (st : BotState)
    (i : Nat) (r : Record)
    (hp : st.pending_rejects.lookup admin = some rid)
    (hr : find_record st.store rid = some (i, r)) :
    (admin_reason_handler admin text st).2.userMsg.isSome = true ∧
    (find_record (admin_reason_handler admin text st).1.store rid).map (fun q => q.2.estado)
      = some "Rechazado" ∧
    (∀ j r', find_record (admin_reason_handler admin text st).1.store rid = some (j, r') →
      r'.adminComentario ≠ "") := by
  rw [admin_reason_spec admin text rid st i r hp hr]
  have hupd : find_record_aux rid
      (updateAt (fun r0 =>
        { r0 with
                  estado := "Rechazado",
                  adminComentario := rechazo_comentario admin (pyStrip text) }) st.store i)
      = some (i, { r with
                   estado := "Rechazado",
                   adminComentario := rechazo_comentario admin (pyStrip text) }) :=
    find_record_aux_updateAt rid (fun r0 =>
        { r0 with
                  estado := "Rechazado",
                  adminComentario := rechazo_comentario admin (pyStrip text) })
      (fun r0 => rfl) st.store i r hr
  refine ⟨rfl, ?_, ?_⟩
  · show (find_record_aux rid _).map _ = _
    rw [hupd]
    rfl
  · intro j r' hjr
    have hjr' : (some (i, { r with
        estado := "Rechazado",
        adminComentario := rechazo_comentario admin (pyStrip text) }) :
          Option (Nat × Record)) = some (j, r') := by
      rw [← hupd]
      exact hjr
    injection hjr' with hpair
    injection hpair with hj hr2
    rw [← hr2]
    exact rechazo_comentario_ne_empty admin (pyStrip text)

/-- C7 witness: the empty-trimming message `" "` still rejects and notifies,
with a non-empty stored comment. -/
theorem claim_C7_witness :
    (admin_reason_handler 8214551774 " " stReject).2.userMsg.isSome = true ∧
    (find_record (admin_reason_handler 8214551774 " " stReject).1.store "r1").map
      (fun q => q.2.estado) = some "Rechazado" :=
  ⟨(claim_C7_reason_unvalidated 8214551774 " " "r1" stReject 0 recPend rfl rfl).1,
   (claim_C7_reason_unvalidated 8214551774 " " "r1" stReject 0 recPend rfl rfl).2.1⟩

/-- C8 counterexample: a brand-new registration on an empty sheet already
mints and stores `CodigoUsuario = "1005"` while the record is still
`Esperando comprobante` — the code is not null until approval — and the
follow-up registration of the same user on that sheet appends a second,
distinct record `"r10"` carrying the same code `"1005"`, so `AssignedCode`
is not globally unique across records either. -/
theorem claim_C8_counterexample :
    ((confirmar_datos "sí" 9 udEmpty dt2024 "r9" [5] ⟨[], [], []⟩).map
        (fun res => res.newRecord.map (fun r => (r.codigoUsuario, r.estado))) =
      some (some ("1005", "Esperando comprobante"))) ∧
    ¬("1005" = "" ∨ "Esperando comprobante" = "Aprobado") ∧
    ((confirmar_datos "sí" 9 udEmpty dt2024 "r10" [] ⟨[recC9], [], []⟩).map
        (fun res => res.state.store.map (fun r => (r.recordID, r.codigoUsuario))) =
      some [("r9", "1005"), ("r10", "1005")]) ∧
    ¬("r9" = "r10") := by
  exact ⟨rfl, by decide, rfl, by decide⟩

/-- C8 amended: the code is assigned already at registration confirmation —
equal to the code of the user's latest record when that record carries one
(reuse), otherwise freshly minted and collision-free against the sheet at
mint time; the approve path never overwrites a non-empty code, and the
reject path never touches the code column. -/
theorem claim_C8_code_lifecycle :
    (∀ a rid draws st i r st' out,
        find_record st.store rid = some (i, r) → r.codigoUsuario ≠ "" →
        aprobar a rid draws st = some (st', out) →
        find_record st'.store rid = some (i, { r with estado := "Aprobado" }) ∧
        out.assignedCode = some r.codigoUsuario) ∧
    (∀ admin text rid st i r,
        st.pending_rejects.lookup admin = some rid →
        find_record st.store rid = some (i, r) →
        (admin_reason_handler admin text st).1.store.map (fun r0 => r0.codigoUsuario) =
          st.store.map (fun r0 => r0.codigoUsuario)) ∧
    (∀ text uid ud ahora rid draws st res r,
        confirmar_datos text uid ud ahora rid draws st = some res →
        res.newRecord = some r →
        r.codigoUsuario ≠ "" ∧
        (∀ r0, find_user_record st.store uid = some r0 → r0.codigoUsuario ≠ "" →
          r.codigoUsuario = r0.codigoUsuario) ∧
        ((∀ r0, find_user_record st.store uid = some r0 → r0.codigoUsuario = "") →
          find_user_by_code st.store r.codigoUsuario = none)) := by
  refine ⟨?_, ?_, ?_⟩
  · intro a rid draws st i r st' out hir hc h
    rw [aprobar_of_nonempty_code a rid draws st i r hir hc] at h
    injection Option.some.inj h with ha hb
    constructor
    · rw [← ha]
      exact find_record_aux_updateAt rid (fun r0 => { r0 with estado := "Aprobado" })
        (fun r0 => rfl) st.store i r hir
    · rw [← hb]
  · intro admin text rid st i r hp hr
    rw [admin_reason_spec admin text rid st i r hp hr]
    exact updateAt_map_codigo (fun r0 =>
        { r0 with
          estado := "Rechazado",
          adminComentario := rechazo_comentario admin (pyStrip text) })
      (fun r0 => rfl) st.store i
  · intro text uid ud ahora rid draws st res r h hr
    unfold confirmar_datos at h
    split at h
    · simp only [] at h
      cases hex : find_user_record st.store uid with
      | none =>
          rw [hex] at h
          cases hm : mint_code st.store draws with
          | none =>
              rw [hm] at h
              simp at h
          | some c =>
              rw [hm] at h
              simp only [Option.map_some'] at h
              injection h with h'
              rw [← h'] at hr
              simp only [] at hr
              injection hr with hr'
              refine ⟨?_, ?_, ?_⟩
              · rw [← hr']
                exact toString_nat_ne_empty c
              · intro r1 h0 _
                exact Option.noConfusion h0
              · intro _
                rw [← hr']
                exact (mint_code_spec st.store draws c hm).2.2
      | some r0 =>
          rw [hex] at h
          simp only [] at h
          cases hb : (r0.codigoUsuario != "") with
          | true =>
              rw [hb] at h
              simp only [if_true] at h
              injection h with h'
              rw [← h'] at hr
              simp only [] at hr
              injection hr with hr'
              refine ⟨?_, ?_, ?_⟩
              · rw [← hr']
                simpa using hb
              · intro r1 h0 _
                injection h0 with h0'
                rw [← hr', h0']
              · intro hall
                have hb' : r0.codigoUsuario ≠ "" := by simpa using hb
                exact absurd (hall r0 rfl) hb'
          | false =>
              rw [hb] at h
              simp only [Bool.false_eq_true, if_false] at h
              cases hm : mint_code st.store draws with
              | none =>
                  rw [hm] at h
                  simp at h
              | some c =>
                  rw [hm] at h
                  simp only [Option.map_some'] at h
                  injection h with h'
                  rw [← h'] at hr
                  simp only [] at hr
                  injection hr with hr'
                  refine ⟨?_, ?_, ?_⟩
                  · rw [← hr']
                    exact toString_nat_ne_empty c
                  · intro r1 h0 hne1
                    injection h0 with h0'
                    have hb' : r0.codigoUsuario = "" := by simpa using hb
                    rw [h0'] at hb'
                    exact absurd hb' hne1
                  · intro _
                    rw [← hr']
                    exact (mint_code_spec st.store draws c hm).2.2
    · injection h with h'
      rw [← h'] at hr
      cases hr

/-- C8 witness: the fresh-user registration mints a non-empty code that was
free in the store at mint time, and the same user's second registration
reuses exactly the code of the latest prior record. -/
theorem claim_C8_witness :
    recC10.codigoUsuario ≠ "" ∧
    recC10.codigoUsuario = recC9.codigoUsuario ∧
    find_user_by_code [] recC9.codigoUsuario = none := by
  have h10 := claim_C8_code_lifecycle.2.2 "sí" 9 udEmpty dt2024 "r10" []
    ⟨[recC9], [], []⟩ resC10 recC10 rfl rfl
  have h9 := claim_C8_code_lifecycle.2.2 "sí" 9 udEmpty dt2024 "r9" [5]
    ⟨[], [], []⟩ resC9 recC9 rfl rfl
  refine ⟨h10.1, ?_, ?_⟩
  · exact h10.2.1 recC9 rfl (by decide)
  · exact h9.2.2 (fun r0 h0 => Option.noConfusion h0)

/-- C9: every record appended by `confirmar_datos` stores
`FechaInversion = now` and `FechaPago = date of now + 10 days`, computed by
Gregorian day stepping: in particular `2024-01-01 + 10 days = 2024-01-11`. -/
theorem claim_C9_payout_date (text : String) (uid : Nat) (ud : UserData) (ahora : DateTime)
    (rid : String) (draws : List Nat) (st : BotState) (res : ConfirmarDatosRes) (r : Record)
    (h : confirmar_datos text uid ud ahora rid draws st = some res)
    (hr : res.newRecord = some r) :
    r.fechaInversion = ahora ∧ r.fechaPago = addDays r.fechaInversion.date 10 ∧
    addDays ⟨2024, 1, 1⟩ 10 = ⟨2024, 1, 11⟩ := by
  unfold confirmar_datos at h
  split at h
  · simp only [] at h
    cases hcod : (match find_user_record st.store uid with
      | some r0 => if r0.codigoUsuario != "" then some r0.codigoUsuario
                   else (mint_code st.store draws).map toString
      | none => (mint_code st.store draws).map toString) with
    | none =>
        rw [hcod] at h
        simp at h
    | some codigo =>
        rw [hcod] at h
        simp only [] at h
        injection h with h'
        rw [← h'] at hr
        simp only [] at hr
        injection hr with hr'
        refine ⟨?_, ?_, ?_⟩
        · rw [← hr']
        · rw [← hr']
        · rfl
  · injection h with h'
    rw [← h'] at hr
    cases hr

/-- C9 witness: the fixture registration at 2024-01-01 stores the payout
date 2024-01-11. -/
theorem claim_C9_witness :
    recC9.fechaInversion = dt2024 ∧
    recC9.fechaPago = addDays recC9.fechaInversion.date 10 ∧
    addDays ⟨2024, 1, 1⟩ 10 = ⟨2024, 1, 11⟩ :=
  claim_C9_payout_date "sí" 9 udEmpty dt2024 "r9" [5] ⟨[], [], []⟩ resC9 recC9 rfl rfl

end MontosBot
